import Mathlib

/-!
Verification of the SSP (spatial semantic pointer) observation wrappers of
`gym_minigrid/wrappers.py`: the object-presence encoder (`SSPWrapper`), the
position+heading encoder (`SSPWrapper2`), the goal-similarity variant
(`SSPGoalWrapper`) and the observation space (`SSPSpace`).

Semantic pointers are modelled in the Fourier domain: a vector of dimension
`d` is its list of `d` Fourier components.  The spec fixes the algebra of the
external `nengo_spa`/`nengo_ssp` dependencies there (binding is elementwise
multiplication in the Fourier domain, fractional power scales each phase with
the magnitude held fixed, basis vectors are unitary with conjugate symmetry,
so spatial vectors are real and the `.real` projections of the source are the
identity).  Spatial-domain norms and inner products are expressed in Fourier
coordinates through the Parseval identity, which carries a `1 / d` factor.
Machine floats are idealised as real numbers throughout.
-/

noncomputable section

/-- A semantic pointer of dimension `d`, represented by its Fourier-domain
components (spec 4.2: binding is computed as elementwise multiplication in
the Fourier domain). -/
abbrev SemanticVector (d : ℕ) := Fin d → ℂ

/-- Binding `a * b` of two semantic pointers (`HrrAlgebra`: circular
convolution, i.e. elementwise multiplication of Fourier components). -/
def bindV {d : ℕ} (a b : SemanticVector d) : SemanticVector d := fun k => a k * b k

/-- Superposition `a + b`: vector addition. -/
def superposeV {d : ℕ} (a b : SemanticVector d) : SemanticVector d := fun k => a k + b k

/-- The zero pointer `np.zeros(d)` (the vocabulary's NULL entry). -/
def zeroV (d : ℕ) : SemanticVector d := fun _ => 0

/-- The binding identity `alg.identity_element(d)`: the pointer whose Fourier
components are all one. -/
def identityV (d : ℕ) : SemanticVector d := fun _ => 1

/-- Fractional power `a ** r`: every Fourier component is raised to the real
exponent `r` (phase scaled by `r`, unit magnitude preserved on unitary
components). -/
def fpowV {d : ℕ} (a : SemanticVector d) (r : ℝ) : SemanticVector d :=
  fun k => a k ^ (r : ℂ)

/-- Unitarity (spec 3 and 4.1): every Fourier component has magnitude one. -/
def IsUnitaryVec {d : ℕ} (a : SemanticVector d) : Prop :=
  ∀ k, Complex.abs (a k) = 1

/-- The L2 norm of the spatial-domain vector (`np.linalg.norm(a.v)`),
expressed in Fourier coordinates via Parseval; hence the `1 / d` factor. -/
def vnorm {d : ℕ} (a : SemanticVector d) : ℝ :=
  Real.sqrt ((∑ k, Complex.normSq (a k)) / (d : ℝ))

/-- Normalization `.normalized()`: divide by the norm.  The zero vector maps
to itself because division by zero is zero (spec 4.2: `normalize(zero)` is
the zero vector, not an error). -/
def normalizeV {d : ℕ} (a : SemanticVector d) : SemanticVector d :=
  fun k => a k / ((vnorm a : ℝ) : ℂ)

/-- The spatial-domain inner product of two pointers, in Fourier coordinates
(Parseval again, hence the division by `d`). -/
def innerC {d : ℕ} (a b : SemanticVector d) : ℂ :=
  (∑ k, (starRingEnd ℂ) (a k) * b k) / (d : ℂ)

/-- The scalar `np.sum(a.v.real * b.v.real)` of `SSPGoalWrapper.observation`
(source line 572): with the conjugate-symmetry invariant of spec 4.1 the
spatial vectors are real, so this is the spatial inner product. -/
def sdotReal {d : ℕ} (a b : SemanticVector d) : ℝ := (innerC a b).re

/-- Modelled from the spec: `similarity(a, b)` is the real part of the
normalized inner product (spec 4.2; the similarity routine lives in the
external `nengo_spa` dependency, not under `src/`). -/
def specSimilarity {d : ℕ} (a b : SemanticVector d) : ℝ :=
  (innerC a b).re / (vnorm a * vnorm b)

/-- Modelled from the spec: the fixed object id-to-name table of the
environment (spec 6; `minigrid.py` is not under `src/`).  Ids 0, 1 and 3 are
the categories meaning "unseen", "empty" and "floor" (spec 4.5). -/
def OBJECT_NAMES : List String :=
  ["unseen", "empty", "wall", "floor", "door", "key", "ball", "box", "goal", "lava", "agent"]

/-- Modelled from the spec: the fixed color id-to-name table of the
environment (spec 6; `minigrid.py` is not under `src/`). -/
def COLOR_NAMES : List String := ["red", "green", "blue", "purple", "yellow", "grey"]

/-- Name of the object with id `i` (`IDX_TO_OBJECT[i]`). -/
def IDX_TO_OBJECT (i : ℕ) : String := OBJECT_NAMES.getD i ""

/-- The upper-cased color names `[x.upper() for x in COLOR_TO_IDX]` (source
line 413), written out literally: the Python `upper()` of the fixed table is
known. -/
def COLOR_SYMBOLS : List String := ["RED", "GREEN", "BLUE", "PURPLE", "YELLOW", "GREY"]

/-- The upper-cased object names `[x.upper() for x in OBJECT_TO_IDX]`
(source line 416), written out literally. -/
def OBJECT_SYMBOLS : List String :=
  ["UNSEEN", "EMPTY", "WALL", "FLOOR", "DOOR", "KEY", "BALL", "BOX", "GOAL", "LAVA", "AGENT"]

/-- Symbols populated into the object-presence wrapper's vocabulary
(`SSPWrapper.__init__`, source lines 413-421): the upper-cased color and
object names followed by the NULL and OPEN entries. -/
def sspWrapperVocabSymbols : List String :=
  COLOR_SYMBOLS ++ OBJECT_SYMBOLS ++ ["NULL", "OPEN"]

/-- Symbols populated into the position+heading wrapper's vocabulary
(`SSPWrapper2.__init__`, source line 524). -/
def sspWrapper2VocabSymbols : List String := ["POSITION", "DIRECTION"]

/-- `SSPGoalWrapper.__init__` defers to `SSPWrapper.__init__` (source line
558), so the goal variant's vocabulary symbols are the object-presence
ones. -/
def sspGoalVocabSymbols : List String := sspWrapperVocabSymbols

/-- Modelled from the spec: the four-entry direction-to-unit-heading lookup
`DIR_TO_VEC` (spec 4.6; `minigrid.py` is not under `src/`). -/
def DIR_TO_VEC (k : Fin 4) : ℤ × ℤ :=
  match k with
  | ⟨0, _⟩ => (1, 0)
  | ⟨1, _⟩ => (0, 1)
  | ⟨2, _⟩ => (-1, 0)
  | ⟨3, _⟩ => (0, -1)

/-- A raw categorical `W×H×3` observation image: each cell holds an
(object id, color id, state id) triple. -/
def Grid3 (W H : ℕ) := Fin W → Fin H → ℕ × ℕ × ℕ

/-- The object-id channel `img[:, :, 0]` flattened row-major. -/
def presentVals {W H : ℕ} (img : Grid3 W H) : List ℕ :=
  (List.finRange W).flatMap fun i => (List.finRange H).map fun j => (img i j).1

/-- `np.unique` of the object channel followed by `np.delete` of ids 0, 1
and 3 (`SSPWrapper.observation`, source lines 487-489).  `np.unique` also
sorts; the iteration order is immaterial because superposition is
commutative, so only the deduplication is modelled. -/
def qualifyingList {W H : ℕ} (img : Grid3 W H) : List ℕ :=
  (presentVals img).dedup.filter fun i => decide (¬(i = 0 ∨ i = 1 ∨ i = 3))

/-- Sum of the reconstruction-table pointers over every cell holding object
id `i` (source line 494). -/
def cellSum {W H d : ℕ} (tbl : Fin W → Fin H → SemanticVector d)
    (img : Grid3 W H) (i : ℕ) : SemanticVector d :=
  ∑ p : Fin W × Fin H, if (img p.1 p.2).1 = i then tbl p.1 p.2 else 0

/-- The object-presence encoder's output image (`SSPWrapper.observation`,
source lines 486-496): starting from the zero pointer, for every qualifying
object id superpose the normalized pointer sum bound with the vocabulary
vector of the object's upper-cased name. -/
def sspObservationImage {W H d : ℕ} (tbl : Fin W → Fin H → SemanticVector d)
    (vocab : String → SemanticVector d) (img : Grid3 W H) : SemanticVector d :=
  (qualifyingList img).foldl
    (fun M i =>
      superposeV M (bindV (normalizeV (cellSum tbl img i)) (vocab (IDX_TO_OBJECT i).toUpper)))
    (zeroV d)

/-- An observation dictionary with a mission string and an image of type
`α`. -/
structure RawObs (α : Type) where
  mission : String
  image : α

/-- The dictionary returned by the SSP encoders: mission string plus an
encoded image vector. -/
structure EncodedObs (d : ℕ) where
  mission : String
  image : SemanticVector d

/-- `SSPWrapper.observation` as a whole (source lines 472-504): mission
passed through, image replaced by the encoded pointer. -/
def sspWrapper_observation {W H d : ℕ} (tbl : Fin W → Fin H → SemanticVector d)
    (vocab : String → SemanticVector d) (o : RawObs (Grid3 W H)) : EncodedObs d :=
  { mission := o.mission, image := sspObservationImage tbl vocab o.image }

/-- `SSPWrapper2.observation` (source lines 539-549): the image is ignored;
the output pointer binds the POSITION vocabulary vector with the agent
position pointer and superposes it with the DIRECTION vector bound with the
heading pointer taken from the `DIR_TO_VEC` lookup. -/
def sspWrapper2_observation {d : ℕ} (X Y vPOSITION vDIRECTION : SemanticVector d)
    (agentPos : ℕ × ℕ) (agentDir : Fin 4) {α : Type} (o : RawObs α) : EncodedObs d :=
  let agent_ssp := bindV (fpowV X (agentPos.1 : ℝ)) (fpowV Y (agentPos.2 : ℝ))
  let dir_ssp := bindV (fpowV X ((DIR_TO_VEC agentDir).1 : ℝ))
    (fpowV Y ((DIR_TO_VEC agentDir).2 : ℝ))
  { mission := o.mission
    image := superposeV (bindV vPOSITION agent_ssp) (bindV vDIRECTION dir_ssp) }

/-- An observation dictionary after `SSPGoalWrapper.observation`: the input
fields plus the added goal-similarity scalar. -/
structure GoalObs (α : Type) where
  mission : String
  image : α
  goalSimilarity : ℝ

/-- `SSPGoalWrapper.observation` (source lines 569-573): the input
observation is returned with mission and image untouched and the scalar
`np.sum(goal_ssp.v.real * agent_ssp.v.real)` added under the key
`goal_similarity`. -/
def sspGoal_observation {d : ℕ} (X Y : SemanticVector d) (goalPos agentPos : ℕ × ℕ)
    {α : Type} (o : RawObs α) : GoalObs α :=
  let goal_ssp := bindV (fpowV X (goalPos.1 : ℝ)) (fpowV Y (goalPos.2 : ℝ))
  let agent_ssp := bindV (fpowV X (agentPos.1 : ℝ)) (fpowV Y (agentPos.2 : ℝ))
  { mission := o.mission, image := o.image, goalSimilarity := sdotReal goal_ssp agent_ssp }

/-- Modelled from the spec: a static grid cell, reduced to whether it holds
the goal object (the `isinstance(y, Goal)` test of source line 564;
`minigrid.py` is not under `src/`). -/
inductive CellObj : Type
  | goal : CellObj
  | other : CellObj
deriving DecidableEq

/-- Indices of goal cells in the flat grid list: the list comprehension of
`SSPGoalWrapper.reset` (source line 564). -/
def goalIndices (g : List CellObj) : List ℕ :=
  g.enum.filterMap fun p => if p.2 = CellObj.goal then some p.1 else none

/-- One reset of `SSPGoalWrapper` (source lines 561-567).  If the cached
goal position is still unresolved (Python-falsy: `None`, or the empty match
list of a goalless scan), the grid is scanned; a nonempty match list
resolves the cache to `(idx // height, idx % width)` of its first element,
and a resolved cache is left untouched. -/
def resetUpdate (height width : ℕ) (st : Option (ℕ × ℕ)) (g : List CellObj) :
    Option (ℕ × ℕ) :=
  match st with
  | some p => some p
  | none =>
    match goalIndices g with
    | [] => none
    | t :: _ => some (t / height, t % width)

/-- Python runtime type tags relevant to `SSPSpace.contains` (source line
600): the two accepted semantic-pointer classes, plus plain arrays and
anything else. -/
inductive SPType : Type
  | semanticPointer : SPType
  | spatialSemanticPointer : SPType
  | ndarray : SPType
  | pyOther : SPType
deriving DecidableEq

/-- A runtime value as `SSPSpace.contains` sees it: a type tag plus the
vector data. -/
structure PyVec : Type where
  sptype : SPType
  data : List ℂ

/-- `SSPSpace.contains` (source lines 594-600): the runtime type is
`SemanticPointer` or `SpatialSemanticPointer` and the length equals the
space dimension; nothing about the data values is inspected. -/
def sspContains (dim : ℕ) (x : PyVec) : Bool :=
  (decide (x.sptype = SPType.semanticPointer)
      || decide (x.sptype = SPType.spatialSemanticPointer))
    && decide (x.data.length = dim)

/-- Modelled from the spec: `SSPSpace.sample` draws one vector from the
uniform distribution over valid spatial pointers of dimension `d` (spec 4.8;
the `nengo_ssp` distribution machinery it delegates to is not under `src/`).
The outcome of the random draw is abstracted as the function `draw`. -/
def sspSample (dim : ℕ) (draw : Fin dim → ℂ) : PyVec :=
  { sptype := SPType.spatialSemanticPointer, data := (List.finRange dim).map draw }

/-- `np.linspace(a, b, n)` at index `k`. -/
def linspace (a b : ℝ) (n : ℕ) (k : ℕ) : ℝ := a + (b - a) * k / ((n : ℝ) - 1)

/-- The x offsets of the smoothing sample: `np.linspace(0, delta, 50)`
(source line 449). -/
def sampleOx (δ : ℕ) (k : ℕ) : ℝ := linspace 0 (δ : ℝ) 50 k

/-- The y offsets of the smoothing sample:
`np.linspace(-(delta//2), delta//2, 50)` (source line 450). -/
def sampleOy (δ : ℕ) (l : ℕ) : ℝ :=
  linspace (-((δ / 2 : ℕ) : ℝ)) ((δ / 2 : ℕ) : ℝ) 50 l

/-- The single precomputed smoothing pointer `S_rec` (source lines 449-455):
the normalized sum of the position pointers over the dense offset sample. -/
def smoothingPointer {d : ℕ} (X Y : SemanticVector d) (δ : ℕ) : SemanticVector d :=
  normalizeV (∑ k : Fin 50, ∑ l : Fin 50,
    bindV (fpowV X (sampleOx δ k)) (fpowV Y (sampleOy δ l)))

/-- The `b`-th entry of `xi = np.arange(W - 0.5, 0, -1) * delta - delta//2`
(source line 459). -/
def xiPos (W δ : ℕ) (b : ℕ) : ℝ :=
  ((W : ℝ) - 0.5 - (b : ℝ)) * (δ : ℝ) - ((δ / 2 : ℕ) : ℝ)

/-- The `a`-th entry of `yi = np.arange(H//2, -H//2, -1) * delta` (source
line 460; Python floor division makes the stop value `-(H//2) - (H mod 2)`,
so the range has exactly `H` entries). -/
def yiPos (H δ : ℕ) (a : ℕ) : ℝ := (((H / 2 : ℕ) : ℝ) - (a : ℝ)) * (δ : ℝ)

/-- Flat index of cell `(i, j)` after the final reshape to `(W, H, d)`
(source lines 469-470). -/
def flatIdx {W H : ℕ} (i : Fin W) (j : Fin H) : ℕ := i.val * H + j.val

/-- The nominal continuous position the code assigns to cell `(i, j)`: the
meshgrid of `xi` and `yi` is flattened row-major, so flat index `t` carries
the position `(xi[t % W], yi[t / W])` (source lines 461-463). -/
def nominalPos (W H δ : ℕ) (i : Fin W) (j : Fin H) : ℝ × ℝ :=
  (xiPos W δ (flatIdx i j % W), yiPos H δ (flatIdx i j / W))

/-- The position pointer at `p = (x, y)`: `power(X, x)` bound with
`power(Y, y)` (the rows `S_ids` produced by `ssp_vectorized`, source line
464). -/
def posPointer {d : ℕ} (X Y : SemanticVector d) (p : ℝ × ℝ) : SemanticVector d :=
  bindV (fpowV X p.1) (fpowV Y p.2)

/-- The reconstruction-table entry the code stores for cell `(i, j)` (source
lines 465-470): `(S_rec * SpatialSemanticPointer(S_ids[t])).normalized()`. -/
def tableEntry {d : ℕ} (X Y : SemanticVector d) (W H δ : ℕ)
    (i : Fin W) (j : Fin H) : SemanticVector d :=
  normalizeV (bindV (smoothingPointer X Y δ) (posPointer X Y (nominalPos W H δ i j)))

/-- Modelled from the spec: the reference definition of the reconstruction
table (spec 4.4) — for every relative cell, normalize the sum over the dense
sample of continuous offsets around the cell's nominal position of
`power(X, x)` bound with `power(Y, y)`. -/
def specTableEntry {d : ℕ} (X Y : SemanticVector d) (W H δ : ℕ)
    (i : Fin W) (j : Fin H) : SemanticVector d :=
  normalizeV (∑ k : Fin 50, ∑ l : Fin 50,
    bindV (fpowV X ((nominalPos W H δ i j).1 + sampleOx δ k))
      (fpowV Y ((nominalPos W H δ i j).2 + sampleOy δ l)))

/-- The all-ones pointer of dimension one, a concrete unitary vector used by
the witnesses. -/
def unitOne : SemanticVector 1 := fun _ => 1

/-- A concrete all-unseen 1×1 grid. -/
def grid0 : Grid3 1 1 := fun _ _ => (0, 0, 0)

/-- A concrete reconstruction table for the witnesses. -/
def tbl0 : Fin 1 → Fin 1 → SemanticVector 1 := fun _ _ => zeroV 1

/-- A concrete vocabulary for the witnesses. -/
def vocab0 : String → SemanticVector 1 := fun _ => zeroV 1

/-- A concrete observation with a trivial image, for the witnesses. -/
def obs0 : RawObs Unit := { mission := "go", image := () }

/-- A concrete grid list whose only goal sits at flat index 1. -/
def gridA : List CellObj := [CellObj.other, CellObj.goal]

/-- A concrete grid list whose only goal sits at flat index 0. -/
def gridB : List CellObj := [CellObj.goal, CellObj.other]

/-! Helper lemmas about the algebra. -/

theorem superposeV_eq_add {d : ℕ} (a b : SemanticVector d) : superposeV a b = a + b := rfl

theorem zeroV_eq_zero (d : ℕ) : zeroV d = 0 := rfl

theorem foldl_superpose {d : ℕ} (f : ℕ → SemanticVector d) :
    ∀ (l : List ℕ) (z : SemanticVector d),
      l.foldl (fun M i => superposeV M (f i)) z = z + (l.map f).sum := by
  intro l
  induction l with
  | nil => intro z; simp
  | cons a t ih =>
    intro z
    rw [List.foldl_cons, ih, superposeV_eq_add, List.map_cons, List.sum_cons, add_assoc]

theorem unitary_ne_zero {d : ℕ} {a : SemanticVector d} (h : IsUnitaryVec a) (k : Fin d) :
    a k ≠ 0 := by
  intro h0
  have h1 := h k
  rw [h0] at h1
  simp at h1

theorem fpowV_zero {d : ℕ} (a : SemanticVector d) : fpowV a 0 = identityV d := by
  funext k
  simp [fpowV, identityV, Complex.cpow_zero]

theorem fpowV_add {d : ℕ} {a : SemanticVector d} (h : IsUnitaryVec a) (r s : ℝ) :
    bindV (fpowV a r) (fpowV a s) = fpowV a (r + s) := by
  funext k
  simp only [bindV, fpowV, Complex.ofReal_add]
  rw [Complex.cpow_add _ _ (unitary_ne_zero h k)]

theorem unitary_fpowV {d : ℕ} {a : SemanticVector d} (h : IsUnitaryVec a) (r : ℝ) :
    IsUnitaryVec (fpowV a r) := by
  intro k
  show Complex.abs (a k ^ (r : ℂ)) = 1
  rw [Complex.abs_cpow_of_ne_zero (unitary_ne_zero h k)]
  simp [h k]

theorem unitary_bindV {d : ℕ} {a b : SemanticVector d}
    (ha : IsUnitaryVec a) (hb : IsUnitaryVec b) : IsUnitaryVec (bindV a b) := by
  intro k
  show Complex.abs (a k * b k) = 1
  rw [map_mul, ha k, hb k, mul_one]

theorem vnorm_nonneg {d : ℕ} (a : SemanticVector d) : 0 ≤ vnorm a :=
  Real.sqrt_nonneg _

theorem vnorm_eq_zero {d : ℕ} (hd : 0 < d) (a : SemanticVector d) (h : vnorm a = 0) :
    a = fun _ => 0 := by
  have hnn : 0 ≤ ∑ k, Complex.normSq (a k) :=
    Finset.sum_nonneg fun k _ => Complex.normSq_nonneg _
  have hd' : (0 : ℝ) < (d : ℝ) := by exact_mod_cast hd
  have hle : (∑ k, Complex.normSq (a k)) / (d : ℝ) ≤ 0 := Real.sqrt_eq_zero'.mp h
  have h0 : (∑ k, Complex.normSq (a k)) / (d : ℝ) = 0 :=
    le_antisymm hle (div_nonneg hnn hd'.le)
  have hsum0 : (∑ k, Complex.normSq (a k)) = 0 := by
    rcases div_eq_zero_iff.mp h0 with h1 | h1
    · exact h1
    · exact absurd h1 hd'.ne'
  funext k
  have hk := (Finset.sum_eq_zero_iff_of_nonneg
    (fun k _ => Complex.normSq_nonneg (a k))).mp hsum0 k (Finset.mem_univ k)
  exact Complex.normSq_eq_zero.mp hk

theorem vnorm_smul {d : ℕ} (c : ℝ) (hc : 0 ≤ c) (w : SemanticVector d) :
    vnorm (fun k => (c : ℂ) * w k) = c * vnorm w := by
  unfold vnorm
  have hterm : ∀ k : Fin d, Complex.normSq ((c : ℂ) * w k) = c ^ 2 * Complex.normSq (w k) := by
    intro k
    rw [Complex.normSq_mul, Complex.normSq_ofReal]
    ring
  rw [Finset.sum_congr rfl fun k _ => hterm k, ← Finset.mul_sum, mul_div_assoc,
    Real.sqrt_mul (sq_nonneg c), Real.sqrt_sq hc]

theorem normalizeV_smul {d : ℕ} (c : ℝ) (hc : 0 < c) (w : SemanticVector d) :
    normalizeV (fun k => (c : ℂ) * w k) = normalizeV w := by
  funext k
  show ((c : ℂ) * w k) / ((vnorm fun k => (c : ℂ) * w k : ℝ) : ℂ) = w k / ((vnorm w : ℝ) : ℂ)
  rw [vnorm_smul c hc.le w]
  by_cases hw : vnorm w = 0
  · simp [hw]
  · rw [Complex.ofReal_mul]
    exact mul_div_mul_left (w k) _ (by exact_mod_cast hc.ne')

theorem normalizeV_bindV_normalizeV {d : ℕ} (A B : SemanticVector d) :
    normalizeV (bindV (normalizeV A) B) = normalizeV (bindV A B) := by
  rcases Nat.eq_zero_or_pos d with hd | hd
  · subst hd
    funext k
    exact k.elim0
  by_cases hA : vnorm A = 0
  · have hA0 : A = fun _ => 0 := vnorm_eq_zero hd A hA
    rw [hA0]
    have h1 : bindV (normalizeV fun _ => (0 : ℂ)) B = bindV (fun _ => (0 : ℂ)) B := by
      funext k
      simp [bindV, normalizeV]
    rw [h1]
  · have hrw : bindV (normalizeV A) B =
        fun k => ((((vnorm A)⁻¹ : ℝ) : ℂ)) * bindV A B k := by
      funext k
      simp only [bindV, normalizeV, div_eq_mul_inv, Complex.ofReal_inv]
      ring
    rw [hrw]
    exact normalizeV_smul _ (inv_pos.mpr (lt_of_le_of_ne (vnorm_nonneg A) (Ne.symm hA)))
      (bindV A B)

theorem vnorm_unitary {d : ℕ} (hd : 0 < d) {a : SemanticVector d} (h : IsUnitaryVec a) :
    vnorm a = 1 := by
  unfold vnorm
  have hterm : ∀ k : Fin d, Complex.normSq (a k) = 1 := by
    intro k
    rw [← Complex.sq_abs, h k, one_pow]
  rw [Finset.sum_congr rfl fun k _ => hterm k, Finset.sum_const, Finset.card_univ,
    Fintype.card_fin, nsmul_eq_mul, mul_one,
    div_self (by exact_mod_cast hd.ne' : ((d : ℝ)) ≠ 0)]
  exact Real.sqrt_one

theorem resetUpdate_frozen (height width : ℕ) (p : ℕ × ℕ) :
    ∀ gs : List (List CellObj),
      gs.foldl (resetUpdate height width) (some p) = some p := by
  intro gs
  induction gs with
  | nil => rfl
  | cons g t ih => simpa [resetUpdate] using ih

/-! The claim theorems. -/

/-- C7: for every unitary basis vector `a`, `power(a, 0)` is the algebra's
identity element, and for all real exponents `r1`, `r2`, binding
`power(a, r1)` with `power(a, r2)` equals `power(a, r1 + r2)` (exactly, in
the idealised real model, hence within any numeric tolerance). -/
theorem fpow_identity_and_additive {d : ℕ} (a : SemanticVector d) (h : IsUnitaryVec a) :
    fpowV a 0 = identityV d ∧
      ∀ r1 r2 : ℝ, bindV (fpowV a r1) (fpowV a r2) = fpowV a (r1 + r2) :=
  ⟨fpowV_zero a, fun r1 r2 => fpowV_add h r1 r2⟩

/-- Witness for C7: the concrete unitary vector `unitOne` satisfies the
hypothesis and the conclusion at exponents 1 and 2. -/
theorem fpow_identity_and_additive_witness :
    IsUnitaryVec unitOne ∧ fpowV unitOne 0 = identityV 1 ∧
      bindV (fpowV unitOne 1) (fpowV unitOne 2) = fpowV unitOne (1 + 2) := by
  have hu : IsUnitaryVec unitOne := by
    intro k
    show Complex.abs (unitOne k) = 1
    simp [unitOne]
  exact ⟨hu, (fpow_identity_and_additive unitOne hu).1,
    (fpow_identity_and_additive unitOne hu).2 1 2⟩

/-- C6: every vector returned by `SSPSpace.sample` is accepted by
`SSPSpace.contains`: the sample is tagged as a spatial semantic pointer and
has exactly `dim` components. -/
theorem sspContains_sample (dim : ℕ) (draw : Fin dim → ℂ) :
    sspContains dim (sspSample dim draw) = true := by
  simp [sspContains, sspSample]

/-- C9: `SSPSpace.contains` accepts exactly the values whose runtime type is
one of the two recognized semantic-pointer representations and whose length
is the space dimension; it never inspects the data values, so it performs no
check that the vector lies on the encoding manifold. -/
theorem sspContains_spec (dim : ℕ) :
    (∀ x : PyVec, sspContains dim x = true ↔
        ((x.sptype = SPType.semanticPointer ∨ x.sptype = SPType.spatialSemanticPointer)
          ∧ x.data.length = dim)) ∧
      ∀ (st : SPType) (data : List ℂ),
        sspContains dim ⟨st, data⟩ = sspContains dim ⟨st, List.replicate data.length 0⟩ := by
  constructor
  · intro x
    simp [sspContains]
  · intro st data
    simp [sspContains]

/-- C10: `SSPGoalWrapper.observation` returns the input observation's
mission and image fields unchanged — the image is not replaced by an SSP
encoding — and only adds the goal-similarity scalar. -/
theorem sspGoal_observation_frame {d : ℕ} (X Y : SemanticVector d) (gp ap : ℕ × ℕ)
    {α : Type} (o : RawObs α) :
    (sspGoal_observation X Y gp ap o).mission = o.mission ∧
      (sspGoal_observation X Y gp ap o).image = o.image ∧
      (sspGoal_observation X Y gp ap o).goalSimilarity =
        sdotReal (bindV (fpowV X (gp.1 : ℝ)) (fpowV Y (gp.2 : ℝ)))
          (bindV (fpowV X (ap.1 : ℝ)) (fpowV Y (ap.2 : ℝ))) :=
  ⟨rfl, rfl, rfl⟩

/-- C4: `SSPWrapper2.observation` outputs exactly the POSITION binding of
the agent-position pointer superposed with the DIRECTION binding of the
heading pointer obtained through the four-entry `DIR_TO_VEC` lookup, and the
output image is independent of the input image (it is a deterministic
function of the agent position and discrete direction alone). -/
theorem sspWrapper2_observation_spec {d : ℕ} (X Y vPOS vDIR : SemanticVector d)
    (pos : ℕ × ℕ) (dir : Fin 4) {α β : Type} (o : RawObs α) (o' : RawObs β) :
    (sspWrapper2_observation X Y vPOS vDIR pos dir o).image =
        superposeV (bindV vPOS (bindV (fpowV X (pos.1 : ℝ)) (fpowV Y (pos.2 : ℝ))))
          (bindV vDIR (bindV (fpowV X ((DIR_TO_VEC dir).1 : ℝ))
            (fpowV Y ((DIR_TO_VEC dir).2 : ℝ)))) ∧
      (sspWrapper2_observation X Y vPOS vDIR pos dir o).image =
        (sspWrapper2_observation X Y vPOS vDIR pos dir o').image ∧
      (sspWrapper2_observation X Y vPOS vDIR pos dir o).mission = o.mission :=
  ⟨rfl, rfl, rfl⟩

/-- C8: the cached goal position of the goal-similarity variant is resolved
at most once.  If the first reset's scan finds a goal (first matching flat
index `t`), the cache is set to `(t / height, t % width)`, and any sequence
of subsequent resets, over arbitrary later grids, leaves that cached value
unchanged. -/
theorem goalPosition_resolved_once (height width : ℕ) (g0 : List CellObj)
    (gs : List (List CellObj)) (t : ℕ) (ts : List ℕ) (h : goalIndices g0 = t :: ts) :
    resetUpdate height width none g0 = some (t / height, t % width) ∧
      gs.foldl (resetUpdate height width) (resetUpdate height width none g0) =
        some (t / height, t % width) := by
  have h1 : resetUpdate height width none g0 = some (t / height, t % width) := by
    simp [resetUpdate, h]
  exact ⟨h1, by rw [h1]; exact resetUpdate_frozen height width _ gs⟩

/-- Witness for C8: a concrete first grid with its goal at flat index 1 and
a different later grid; the cache is set on the first reset and survives the
second. -/
theorem goalPosition_resolved_once_witness :
    goalIndices gridA = [1] ∧
      resetUpdate 2 2 none gridA = some (1 / 2, 1 % 2) ∧
      [gridB].foldl (resetUpdate 2 2) (resetUpdate 2 2 none gridA) =
        some (1 / 2, 1 % 2) := by
  refine ⟨by decide, ?_⟩
  exact goalPosition_resolved_once 2 2 gridA [gridB] 1 [] (by decide)

/-- C1: the object-presence encoder's output equals the superposition, over
each distinct object id present in the grid excluding the unseen, empty and
floor categories (ids 0, 1, 3), of the normalized sum of the
reconstruction-table pointers at the cells holding that id, bound with the
vocabulary vector of the object's name. -/
theorem sspObservation_superposition {W H d : ℕ} (tbl : Fin W → Fin H → SemanticVector d)
    (vocab : String → SemanticVector d) (img : Grid3 W H) :
    sspObservationImage tbl vocab img =
      ∑ i ∈ (Finset.image (fun p : Fin W × Fin H => (img p.1 p.2).1) Finset.univ).filter
          (fun i => ¬(i = 0 ∨ i = 1 ∨ i = 3)),
        bindV (normalizeV (cellSum tbl img i)) (vocab (IDX_TO_OBJECT i).toUpper) := by
  unfold sspObservationImage
  rw [foldl_superpose, zeroV_eq_zero, zero_add]
  have hnd : (qualifyingList img).Nodup :=
    (List.nodup_dedup (presentVals img)).filter _
  rw [← List.sum_toFinset _ hnd]
  refine Finset.sum_congr ?_ fun x _ => rfl
  ext a
  simp only [qualifyingList, List.mem_toFinset, List.mem_filter, List.mem_dedup,
    Finset.mem_filter, Finset.mem_image, Finset.mem_univ, true_and, decide_eq_true_eq]
  constructor
  · rintro ⟨ha, hq⟩
    refine ⟨?_, hq⟩
    simp only [presentVals, List.mem_flatMap, List.mem_map, List.mem_finRange,
      true_and] at ha
    obtain ⟨i, j, hj⟩ := ha
    exact ⟨(i, j), hj⟩
  · rintro ⟨⟨p, hp⟩, hq⟩
    refine ⟨?_, hq⟩
    simp only [presentVals, List.mem_flatMap, List.mem_map, List.mem_finRange, true_and]
    exact ⟨p.1, p.2, hp⟩

/-- C2: on a grid in which every cell is unseen, empty or floor, no object
qualifies, the encoding loop body never runs (so in particular nothing can
raise), and the output image is the zero vector of dimension `d`. -/
theorem sspObservation_degenerate {W H d : ℕ} (tbl : Fin W → Fin H → SemanticVector d)
    (vocab : String → SemanticVector d) (img : Grid3 W H)
    (h : ∀ p : Fin W × Fin H,
      (img p.1 p.2).1 = 0 ∨ (img p.1 p.2).1 = 1 ∨ (img p.1 p.2).1 = 3) :
    sspObservationImage tbl vocab img = zeroV d := by
  have hq : qualifyingList img = [] := by
    rw [List.eq_nil_iff_forall_not_mem]
    intro a ha
    rw [qualifyingList, List.mem_filter] at ha
    obtain ⟨ha1, ha2⟩ := ha
    rw [decide_eq_true_eq] at ha2
    rw [List.mem_dedup] at ha1
    simp only [presentVals, List.mem_flatMap, List.mem_map, List.mem_finRange,
      true_and] at ha1
    obtain ⟨i, j, rfl⟩ := ha1
    exact ha2 (h (i, j))
  rw [sspObservationImage, hq]
  rfl

/-- Witness for C2: the all-unseen 1×1 grid satisfies the hypothesis and
encodes to the zero vector. -/
theorem sspObservation_degenerate_witness :
    (∀ p : Fin 1 × Fin 1,
        (grid0 p.1 p.2).1 = 0 ∨ (grid0 p.1 p.2).1 = 1 ∨ (grid0 p.1 p.2).1 = 3) ∧
      sspObservationImage tbl0 vocab0 grid0 = zeroV 1 :=
  ⟨by decide, sspObservation_degenerate tbl0 vocab0 grid0 (by decide)⟩

/-- C3: for every relative cell of the view, the reconstruction-table entry
the code stores (the smoothing pointer `S_rec` bound with the cell's
position pointer, normalized) equals the spec's reference definition — the
normalized sum over the dense offset sample of `power(X, x)` bound with
`power(Y, y)` around the cell's nominal position — whenever the two basis
vectors are unitary. -/
theorem tableEntry_eq_specTableEntry {d : ℕ} {X Y : SemanticVector d}
    (hX : IsUnitaryVec X) (hY : IsUnitaryVec Y) (W H δ : ℕ) (i : Fin W) (j : Fin H) :
    tableEntry X Y W H δ i j = specTableEntry X Y W H δ i j := by
  unfold tableEntry specTableEntry smoothingPointer
  rw [normalizeV_bindV_normalizeV]
  refine congrArg normalizeV ?_
  funext m
  simp only [bindV, posPointer, fpowV, Finset.sum_apply]
  rw [Finset.sum_mul]
  refine Finset.sum_congr rfl fun k _ => ?_
  rw [Finset.sum_mul]
  refine Finset.sum_congr rfl fun l _ => ?_
  simp only [Complex.ofReal_add]
  rw [Complex.cpow_add _ _ (unitary_ne_zero hX m),
    Complex.cpow_add _ _ (unitary_ne_zero hY m)]
  ring

/-- Witness for C3: the concrete unitary basis `unitOne` satisfies the
hypotheses, and the table entry of the single cell of a 1×1 view with
`delta = 2` equals the reference definition. -/
theorem tableEntry_eq_specTableEntry_witness :
    IsUnitaryVec unitOne ∧
      tableEntry unitOne unitOne 1 1 2 0 0 = specTableEntry unitOne unitOne 1 1 2 0 0 := by
  have hu : IsUnitaryVec unitOne := by
    intro k
    show Complex.abs (unitOne k) = 1
    simp [unitOne]
  exact ⟨hu, tableEntry_eq_specTableEntry hu hu 1 1 2 0 0⟩

/-- C5 counterexample: the goal-similarity wrapper does not extend the
position+heading encoder.  Its constructor is the object-presence
encoder's, so its vocabulary is the object-presence vocabulary, which does
not contain the POSITION symbol — while the position+heading encoder's
vocabulary does. -/
theorem sspGoal_not_positionEncoder :
    sspGoalVocabSymbols = sspWrapperVocabSymbols ∧
      ("POSITION" ∈ sspGoalVocabSymbols) = False ∧
      ("POSITION" ∈ sspWrapper2VocabSymbols) = True := by
  refine ⟨rfl, ?_, ?_⟩
  · simp only [eq_iff_iff, iff_false]
    decide
  · simp only [eq_iff_iff, iff_true]
    decide

/-- C5 (amended): the goal-similarity variant extends the object-presence
encoder (its constructor, hence its vocabulary, is the object-presence
one), and at every step the exposed auxiliary scalar equals
`similarity(power(X,gx) bound power(Y,gy), power(X,x) bound power(Y,y))`,
the real part of the normalized inner product, whenever the basis vectors
are unitary (as `UnitaryVectors(d)` produces) and the dimension is
positive. -/
theorem sspGoal_similarity_spec :
    sspGoalVocabSymbols = sspWrapperVocabSymbols ∧
      ∀ (d : ℕ) (X Y : SemanticVector d), 0 < d → IsUnitaryVec X → IsUnitaryVec Y →
        ∀ (gp ap : ℕ × ℕ) (α : Type) (o : RawObs α),
          (sspGoal_observation X Y gp ap o).goalSimilarity =
            specSimilarity (bindV (fpowV X (gp.1 : ℝ)) (fpowV Y (gp.2 : ℝ)))
              (bindV (fpowV X (ap.1 : ℝ)) (fpowV Y (ap.2 : ℝ))) := by
  refine ⟨rfl, ?_⟩
  intro d X Y hd hX hY gp ap α o
  have hg : IsUnitaryVec (bindV (fpowV X (gp.1 : ℝ)) (fpowV Y (gp.2 : ℝ))) :=
    unitary_bindV (unitary_fpowV hX _) (unitary_fpowV hY _)
  have ha : IsUnitaryVec (bindV (fpowV X (ap.1 : ℝ)) (fpowV Y (ap.2 : ℝ))) :=
    unitary_bindV (unitary_fpowV hX _) (unitary_fpowV hY _)
  simp only [sspGoal_observation]
  unfold specSimilarity sdotReal
  rw [vnorm_unitary hd hg, vnorm_unitary hd ha]
  norm_num

/-- Witness for C5 (amended): concrete unitary basis and positions. -/
theorem sspGoal_similarity_spec_witness :
    (0 < 1 ∧ IsUnitaryVec unitOne) ∧
      (sspGoal_observation unitOne unitOne (0, 0) (0, 0) obs0).goalSimilarity =
        specSimilarity
          (bindV (fpowV unitOne (((0, 0) : ℕ × ℕ).1 : ℝ))
            (fpowV unitOne (((0, 0) : ℕ × ℕ).2 : ℝ)))
          (bindV (fpowV unitOne (((0, 0) : ℕ × ℕ).1 : ℝ))
            (fpowV unitOne (((0, 0) : ℕ × ℕ).2 : ℝ))) := by
  have hu : IsUnitaryVec unitOne := by
    intro k
    show Complex.abs (unitOne k) = 1
    simp [unitOne]
  exact ⟨⟨one_pos, hu⟩,
    sspGoal_similarity_spec.2 1 unitOne unitOne one_pos hu hu (0, 0) (0, 0) Unit obs0⟩

end
